import Mathlib

/-
Verification development for the subrose/vault core (vault orchestrator,
policy engine, PType engine, encryption pipeline and storage contract).
The orchestrator operations are embedded from vault.go; components that
live outside the embedded sources (policy evaluation, the PType engine,
the identifier mint, the storage backend and the password hash) are
modelled from the specification, as marked on each definition.
Every operation returns, besides its result, the list of effectful steps
it performed, so that ordering properties of effects can be stated.
-/

namespace Subrose

abbrev PolicyAction := String

abbrev PolicyEffect := String

def policyActionRead : PolicyAction := "read"

def policyActionWrite : PolicyAction := "write"

def effectDeny : PolicyEffect := "deny"

def effectAllow : PolicyEffect := "allow"

structure Field where
  type : String
  isIndexed : Bool
deriving DecidableEq

structure Collection where
  id : String
  name : String
  fields : List (String × Field)
  createdAt : String
  updatedAt : String
  description : String
deriving DecidableEq

/-- A record is a mapping from field name to (string) value, embedded as an
association list in insertion order. -/
abbrev Record := List (String × String)

structure Policy where
  id : String
  name : String
  description : String
  effect : PolicyEffect
  actions : List PolicyAction
  resources : List String
deriving DecidableEq

structure Principal where
  id : String
  username : String
  password : String
  description : String
  createdAt : String
  updatedAt : String
  policies : List String
deriving DecidableEq

structure Request where
  actor : Principal
  action : PolicyAction
  resource : String
deriving DecidableEq

def emptyPrincipal : Principal := ⟨"", "", "", "", "", "", []⟩

/-- The zero-valued Request carried by the Forbidden error that Login
returns on every authentication failure path. -/
def emptyRequest : Request := ⟨emptyPrincipal, "", ""⟩

/-- The typed error surface of the orchestrator. -/
inductive VErr where
  | forbidden (req : Request)
  | notFound (resourceName : String) (id : String)
  | valueError (msg : String)
  | validationErrors (msg : String)
  | indexError
  | conflict (msg : String)
  | cryptoError (msg : String)
  | invalidToken (msg : String)
deriving DecidableEq

/-- One effectful step performed by an operation: a storage access or a
crypto call. -/
inductive Event where
  | getPolicies (ids : List String)
  | getCollection (name : String)
  | dbGetRecords (col : String) (ids : List String)
  | dbGetRecordsFilter (col field value : String)
  | dbCreateRecords (col : String) (n : Nat)
  | dbUpdateRecord (col id : String)
  | dbDeleteRecord (col id : String)
  | dbCreatePolicy (id : String)
  | dbCreateToken (tokenId value : String)
  | dbGetTokenValue (tokenId : String)
  | dbGetPrincipal (username : String)
  | encryptEv (plaintext : String)
  | decryptEv (ciphertext : String)
deriving DecidableEq

/-- The policy-engine fetch of the policies attached to a principal. -/
def Event.isPolicyFetch : Event → Bool
  | .getPolicies _ => true
  | _ => false

/-- A storage access other than the policy-engine fetch (crypto calls are
not storage accesses). -/
def Event.isNonPolicyStorage : Event → Bool
  | .getPolicies _ => false
  | .encryptEv _ => false
  | .decryptEv _ => false
  | _ => true

/-- Update an association list at a key, keeping first-occurrence order. -/
def setAssoc {α : Type} (m : List (String × α)) (k : String) (v : α) :
    List (String × α) :=
  match m with
  | [] => [(k, v)]
  | (k2, v2) :: rest =>
    if k = k2 then (k, v) :: rest else (k2, v2) :: setAssoc rest k v

/-- Modelled from the spec: the identifier mint produces
prefix-underscore-unique identifiers; uniqueness is realized here by a
counter threaded through the store. -/
def generateId (pre : String) (n : Nat) : String := pre ++ "_" ++ toString n

/-- Modelled from the spec: the password-hash collaborator (a bcrypt-class
one-way hash); compare succeeds exactly on the hashed secret. -/
def hashPassword (pw : String) : String := "bcrypt$" ++ pw

/-- Modelled from the spec: hash comparison used by Login. -/
def bcryptOk (hash pw : String) : Bool := hash == hashPassword pw

structure PValue where
  ptype : String
  val : String
deriving DecidableEq

/-- Modelled from the spec: the PType engine parse step. Validates a raw
string per a named primitive type from the catalog (string, name,
phoneNumber, date, email); unknown types and malformed values are
rejected. -/
def GetPType (t v : String) : Except VErr PValue :=
  if t = "string" then .ok ⟨t, v⟩
  else if t = "name" then
    (if v ≠ "" then .ok ⟨t, v⟩ else .error (.valueError "invalid name"))
  else if t = "phoneNumber" then
    (if v ≠ "" ∧ v.data.all Char.isDigit then .ok ⟨t, v⟩
     else .error (.valueError "invalid phone number"))
  else if t = "date" then
    (if v ≠ "" then .ok ⟨t, v⟩ else .error (.valueError "invalid date"))
  else if t = "email" then
    (if v.data.any (fun c => c = '@') then .ok ⟨t, v⟩
     else .error (.valueError "invalid email"))
  else .error (.valueError ("unknown ptype " ++ t))

/-- Every code point replaced by a star, preserving length. -/
def maskAll (s : String) : String := String.mk (s.data.map (fun _ => '*'))

/-- Modelled from the spec: rendering a parsed value in a named
projection. plain is identity for every type; masked is defined for
free-text types; last_four for delimited data; unknown projection names
are rejected. -/
def PValue.get (pv : PValue) (format : String) : Except VErr String :=
  if format = "plain" then .ok pv.val
  else if format = "masked" ∧
      (pv.ptype = "string" ∨ pv.ptype = "name" ∨ pv.ptype = "email") then
    .ok (maskAll pv.val)
  else if format = "last_four" ∧ pv.ptype = "phoneNumber" then
    .ok (String.mk (pv.val.data.drop (pv.val.data.length - 4)))
  else .error (.valueError ("unknown format " ++ format))

/-- Whether the first list is an initial segment of the second. -/
def isPreList : List Char → List Char → Bool
  | [], _ => true
  | _ :: _, [] => false
  | c :: cs, d :: ds => c == d && isPreList cs ds

/-- strings.HasPrefix on the underlying character lists. -/
def strStarts (s pat : String) : Bool := isPreList pat.data s.data

/-- strings.HasSuffix on the underlying character lists. -/
def strEnds (s pat : String) : Bool := isPreList pat.data.reverse s.data.reverse

/-- strings.Split with a single-character separator, on character lists. -/
def splitCharsOn (sep : Char) (l : List Char) : List (List Char) :=
  l.foldr
    (fun c acc =>
      match acc with
      | [] => [[c]]
      | cur :: rest => if c == sep then [] :: cur :: rest else (c :: cur) :: rest)
    [[]]

/-- strings.Split on the slash separator. -/
def splitOnSlash (s : String) : List String := (splitCharsOn '/' s.data).map String.mk

/-- Modelled from the spec: a resource pattern is slash-rooted and may
carry a trailing star wildcard matching any suffix; without the star it is
an exact match. -/
def matchesPat (pat res : String) : Bool :=
  if strEnds pat "*" then strStarts res (String.mk pat.data.dropLast) else pat == res

/-- Modelled from the spec: a policy matches a request when some resource
pattern matches the resource and the action is a member of the policy
action set. -/
def policyMatches (p : Policy) (r : Request) : Bool :=
  (p.resources.any (fun pat => matchesPat pat r.resource)) &&
    (p.actions.any (fun a => a == r.action))

/-- Modelled from the spec: iterate the attached policies, collect those
matching on both resource pattern and action; any matched deny gives deny,
else any matched allow gives allow, else default-deny. -/
def EvaluateRequest (r : Request) (ps : List Policy) : Bool :=
  let matched := ps.filter (fun p => policyMatches p r)
  if matched.any (fun p => p.effect == effectDeny) then false
  else matched.any (fun p => p.effect == effectAllow)

/-- The pluggable symmetric-encryption collaborator. -/
structure Privatiser where
  encrypt : String → Except VErr String
  decrypt : String → Except VErr String

/-- Modelled from the spec: a deterministic reversible privatiser; the
round trip decrypt-after-encrypt is the identity. -/
def specPriv : Privatiser where
  encrypt := fun s => .ok (String.mk ('E' :: s.data))
  decrypt := fun s =>
    match s.data with
    | 'E' :: rest => .ok (String.mk rest)
    | _ => .error (.cryptoError "bad ciphertext")

/-- A privatiser whose encryption always fails, to exercise crypto-error
propagation. -/
def privFail : Privatiser where
  encrypt := fun _ => .error (.cryptoError "boom")
  decrypt := specPriv.decrypt

/-- Modelled from the spec: the in-memory state of the storage backend. -/
structure DB where
  collections : List (String × Collection)
  recordsStore : List (String × List (String × Record))
  principals : List (String × Principal)
  policiesStore : List (String × Policy)
  tokens : List (String × String)
  nextId : Nat

/-- Modelled from the spec: collection read; a miss is a typed not-found. -/
def DB.getCollection (db : DB) (name : String) : Except VErr Collection :=
  match db.collections.lookup name with
  | some c => .ok c
  | none => .error (.notFound "collection" name)

/-- Modelled from the spec: getMany over policy ids; dangling ids are
silently omitted. -/
def DB.getPolicies (db : DB) (ids : List String) : Except VErr (List Policy) :=
  .ok (ids.filterMap (fun i => db.policiesStore.lookup i))

def DB.recordsOf (db : DB) (col : String) : List (String × Record) :=
  (db.recordsStore.lookup col).getD []

/-- The records found in the store for the requested ids, in request
order; missing ids contribute nothing. -/
def DB.foundRecords (db : DB) (col : String) (ids : List String) :
    List (String × Record) :=
  ids.filterMap (fun i => ((db.recordsOf col).lookup i).map (fun r => (i, r)))

/-- The result list of the storage get-many: per spec sections 4.6 and 9
a read in which any requested id is missing yields no records, so the
orchestrator's empty-result guard reports NotFound on the first requested
id; when every requested id exists the records come back in request
order. -/
def DB.readRecords (db : DB) (col : String) (ids : List String) :
    List (String × Record) :=
  if (db.foundRecords col ids).length = ids.length then db.foundRecords col ids else []

/-- Modelled from the spec: get-many records by ids, yielding no records
when any requested id is missing (sections 4.6 and 9) and the full batch
in request order otherwise. -/
def DB.getRecords (db : DB) (col : String) (ids : List String) :
    Except VErr (List (String × Record)) :=
  .ok (db.readRecords col ids)

/-- Modelled from the spec: batch create of records, minting ids in input
order. -/
def DB.createRecords (db : DB) (col : String) (recs : List Record) :
    List String × DB :=
  let ids := (List.range recs.length).map (fun i => generateId "rec" (db.nextId + i))
  let newRecs := db.recordsOf col ++ ids.zip recs
  (ids, { db with recordsStore := setAssoc db.recordsStore col newRecs,
                  nextId := db.nextId + recs.length })

/-- The storage state after replacing one collection record list and the
mint counter; spelled out so that structure updates stay on one line. -/
def DB.withRecords (db : DB) (colName : String) (recs : List (String × Record)) (n : Nat) : DB :=
  { db with recordsStore := setAssoc db.recordsStore colName recs, nextId := n }

def mergeRecord (r patch : Record) : Record :=
  patch.foldl (fun acc kv => setAssoc acc kv.1 kv.2) r

/-- Modelled from the spec: per-field patch of an existing record; a miss
is a typed not-found. -/
def DB.updateRecord (db : DB) (col id : String) (patch : Record) :
    Except VErr DB :=
  match (db.recordsOf col).lookup id with
  | none => .error (.notFound "record" id)
  | some r =>
    let newRecs := setAssoc (db.recordsOf col) id (mergeRecord r patch)
    .ok { db with recordsStore := setAssoc db.recordsStore col newRecs }

/-- Modelled from the spec: exact-match lookup of record ids by ciphertext
value on an indexed field; a non-indexed field is an IndexError. -/
def DB.getRecordsFilter (db : DB) (col field value : String) :
    Except VErr (List String) :=
  match db.collections.lookup col with
  | none => .error (.notFound "collection" col)
  | some c =>
    match c.fields.lookup field with
    | none => .error .indexError
    | some f =>
      if f.isIndexed then
        .ok ((db.recordsOf col).filterMap
          (fun idr => if idr.2.lookup field == some value then some idr.1 else none))
      else .error .indexError

/-- Modelled from the spec: policy create by id; duplicate ids conflict. -/
def DB.createPolicy (db : DB) (p : Policy) : Except VErr DB :=
  match db.policiesStore.lookup p.id with
  | some _ => .error (.conflict p.id)
  | none => .ok { db with policiesStore := setAssoc db.policiesStore p.id p }

/-- Modelled from the spec: token create by id. -/
def DB.createToken (db : DB) (tokenId value : String) : DB :=
  { db with tokens := setAssoc db.tokens tokenId value }

/-- Modelled from the spec: token read; a miss is a typed not-found. -/
def DB.getTokenValue (db : DB) (tokenId : String) : Except VErr String :=
  match db.tokens.lookup tokenId with
  | some v => .ok v
  | none => .error (.notFound "token" tokenId)

/-- Modelled from the spec: principal read by access key; a miss is a
typed not-found. -/
def DB.getPrincipal (db : DB) (username : String) : Except VErr Principal :=
  match db.principals.lookup username with
  | some p => .ok p
  | none => .error (.notFound "principal" username)

/-- The policies attached to a principal, as the storage fetch resolves
them. -/
def policiesOf (db : DB) (principal : Principal) : List Policy :=
  principal.policies.filterMap (fun i => db.policiesStore.lookup i)

/-- Vault.ValidateAction: fetch the principal policies and evaluate the
request against them. -/
def validateAction (db : DB) (req : Request) : Except VErr Bool × List Event :=
  match db.getPolicies req.actor.policies with
  | .error e => (.error e, [Event.getPolicies req.actor.policies])
  | .ok ps => (.ok (EvaluateRequest req ps), [Event.getPolicies req.actor.policies])

def recordsResource (col : String) : String :=
  "/collections/" ++ col ++ "/records"

def recordFieldResource (col rid field format : String) : String :=
  "/collections/" ++ col ++ "/records/" ++ rid ++ "/" ++ field ++ "." ++ format

/-- The inner loop of the authorization pass of Vault.GetRecords: one
policy check per requested field-and-projection of one record. -/
def authFields (db : DB) (principal : Principal) (col rid : String) :
    List (String × String) → Except VErr Unit × List Event
  | [] => (.ok (), [])
  | (field, format) :: rest =>
    let req : Request := ⟨principal, policyActionRead, recordFieldResource col rid field format⟩
    match validateAction db req with
    | (.error e, t) => (.error e, t)
    | (.ok allowed, t) =>
      if allowed then
        let res := authFields db principal col rid rest
        (res.1, t ++ res.2)
      else (.error (.forbidden req), t)

/-- The outer loop of the authorization pass of Vault.GetRecords: per
requested record id. -/
def authRecords (db : DB) (principal : Principal) (col : String)
    (formats : List (String × String)) :
    List String → Except VErr Unit × List Event
  | [] => (.ok (), [])
  | rid :: rest =>
    match authFields db principal col rid formats with
    | (.error e, t) => (.error e, t)
    | (.ok _, t) =>
      let res := authRecords db principal col formats rest
      (res.1, t ++ res.2)

/-- The per-field check of Vault.GetRecords that every requested field
exists on the collection. -/
def fieldsExist (col : Collection) (colName : String) :
    List (String × String) → Except VErr Unit
  | [] => .ok ()
  | (field, _) :: rest =>
    if (col.fields.lookup field).isSome then fieldsExist col colName rest
    else .error (.notFound ("Field " ++ field ++ " not found on collection " ++ colName) "")

/-- The render loop of Vault.GetRecords over one stored record: for each
requested field, decrypt the stored value (a missing field reads as the
empty string, as the zero value of a map access does), rehydrate the
PType and render the requested projection. -/
def renderRecord (priv : Privatiser) (col : Collection) (r : Record) :
    List (String × String) → Except VErr Record × List Event
  | [] => (.ok [], [])
  | (field, format) :: rest =>
    let cipher := (r.lookup field).getD ""
    match priv.decrypt cipher with
    | .error e => (.error e, [Event.decryptEv cipher])
    | .ok plain =>
      match GetPType ((col.fields.lookup field).getD ⟨"", false⟩).type plain with
      | .error e => (.error e, [Event.decryptEv cipher])
      | .ok pv =>
        match pv.get format with
        | .error e => (.error e, [Event.decryptEv cipher])
        | .ok out =>
          match renderRecord priv col r rest with
          | (.error e, t2) => (.error e, Event.decryptEv cipher :: t2)
          | (.ok restOut, t2) => (.ok ((field, out) :: restOut), Event.decryptEv cipher :: t2)

/-- The render loop of Vault.GetRecords over all found records. -/
def renderRecords (priv : Privatiser) (col : Collection)
    (formats : List (String × String)) :
    List (String × Record) → Except VErr (List (String × Record)) × List Event
  | [] => (.ok [], [])
  | (rid, r) :: rest =>
    match renderRecord priv col r formats with
    | (.error e, t) => (.error e, t)
    | (.ok out, t) =>
      match renderRecords priv col formats rest with
      | (.error e, t2) => (.error e, t ++ t2)
      | (.ok outs, t2) => (.ok ((rid, out) :: outs), t ++ t2)

/-- Vault.GetRecords: reject an empty id list, authorize every requested
record-field-projection tuple, load the collection, check the requested
fields exist, fetch the records, reject an empty fetch result with a
not-found on the first requested id, then decrypt and render. -/
def getRecords (priv : Privatiser) (db : DB) (principal : Principal)
    (colName : String) (recordIDs : List String)
    (formats : List (String × String)) :
    Except VErr (List (String × Record)) × List Event :=
  if recordIDs.isEmpty then
    (.error (.valueError "recordIDs must not be empty"), [])
  else
    match authRecords db principal colName formats recordIDs with
    | (.error e, t) => (.error e, t)
    | (.ok _, t) =>
      match db.getCollection colName with
      | .error e => (.error e, t ++ [Event.getCollection colName])
      | .ok col =>
        match fieldsExist col colName formats with
        | .error e => (.error e, t ++ [Event.getCollection colName])
        | .ok _ =>
          match db.getRecords colName recordIDs with
          | .error e =>
            (.error e, t ++ [Event.getCollection colName, Event.dbGetRecords colName recordIDs])
          | .ok found =>
            let t2 := t ++ [Event.getCollection colName, Event.dbGetRecords colName recordIDs]
            if found.isEmpty then
              (.error (.notFound "record" (recordIDs.headD "")), t2)
            else
              match renderRecords priv col formats found with
              | (.error e, t3) => (.error e, t2 ++ t3)
              | (.ok out, t3) => (.ok out, t2 ++ t3)

/-- Vault.GetRecordsFilter: encrypt the lookup value discarding any
encryption error (the zero-valued ciphertext is used in that case), run
the storage exact-match index lookup, then delegate to GetRecords. -/
def getRecordsFilter (priv : Privatiser) (db : DB) (principal : Principal)
    (colName fieldName value : String)
    (formats : List (String × String)) :
    Except VErr (List (String × Record)) × List Event :=
  let val := match priv.encrypt value with
    | .ok c => c
    | .error _ => ""
  match db.getRecordsFilter colName fieldName val with
  | .error e =>
    (.error e, [Event.encryptEv value, Event.dbGetRecordsFilter colName fieldName val])
  | .ok rids =>
    let res := getRecords priv db principal colName rids formats
    (res.1, Event.encryptEv value :: Event.dbGetRecordsFilter colName fieldName val :: res.2)

/-- The per-record loop of Vault.CreateRecords: check each field exists on
the collection, parse it under its PType, and encrypt it. -/
def encRecord (priv : Privatiser) (col : Collection) (colName : String) :
    Record → Except VErr Record × List Event
  | [] => (.ok [], [])
  | (field, v) :: rest =>
    match col.fields.lookup field with
    | none =>
      (.error (.valueError ("Field " ++ field ++ " not found on collection " ++ colName)), [])
    | some fld =>
      match GetPType fld.type v with
      | .error e => (.error e, [])
      | .ok _ =>
        match priv.encrypt v with
        | .error e => (.error e, [Event.encryptEv v])
        | .ok c =>
          match encRecord priv col colName rest with
          | (.error e, t) => (.error e, Event.encryptEv v :: t)
          | (.ok restOut, t) => (.ok ((field, c) :: restOut), Event.encryptEv v :: t)

/-- The outer loop of Vault.CreateRecords over all input records. -/
def encRecords (priv : Privatiser) (col : Collection) (colName : String) :
    List Record → Except VErr (List Record) × List Event
  | [] => (.ok [], [])
  | r :: rest =>
    match encRecord priv col colName r with
    | (.error e, t) => (.error e, t)
    | (.ok er, t) =>
      match encRecords priv col colName rest with
      | (.error e, t2) => (.error e, t ++ t2)
      | (.ok ers, t2) => (.ok (er :: ers), t ++ t2)

/-- Vault.CreateRecords: authorize the write on the records resource of
the collection, load the collection, validate and encrypt every field of
every record, then persist the batch and return the minted ids. -/
def createRecords (priv : Privatiser) (db : DB) (principal : Principal)
    (colName : String) (records : List Record) :
    Except VErr (List String) × DB × List Event :=
  let req : Request := ⟨principal, policyActionWrite, recordsResource colName⟩
  match validateAction db req with
  | (.error e, t) => (.error e, db, t)
  | (.ok allowed, t) =>
    if allowed then
      match db.getCollection colName with
      | .error e => (.error e, db, t ++ [Event.getCollection colName])
      | .ok col =>
        match encRecords priv col colName records with
        | (.error e, t2) => (.error e, db, t ++ [Event.getCollection colName] ++ t2)
        | (.ok encs, t2) =>
          let made := db.createRecords colName encs
          (.ok made.1, made.2,
            t ++ [Event.getCollection colName] ++ t2 ++ [Event.dbCreateRecords colName encs.length])
    else (.error (.forbidden req), db, t)

/-- The encryption loop of Vault.UpdateRecord: every provided field is
encrypted, with no schema check. -/
def encPatch (priv : Privatiser) : Record → Except VErr Record × List Event
  | [] => (.ok [], [])
  | (field, v) :: rest =>
    match priv.encrypt v with
    | .error e => (.error e, [Event.encryptEv v])
    | .ok c =>
      match encPatch priv rest with
      | (.error e, t) => (.error e, Event.encryptEv v :: t)
      | (.ok restOut, t) => (.ok ((field, c) :: restOut), Event.encryptEv v :: t)

/-- Vault.UpdateRecord: authorize the write on the records resource,
encrypt every provided field (the collection schema is never consulted),
then persist the per-field patch. -/
def updateRecord (priv : Privatiser) (db : DB) (principal : Principal)
    (colName rid : String) (r : Record) :
    Except VErr Unit × DB × List Event :=
  let req : Request := ⟨principal, policyActionWrite, recordsResource colName⟩
  match validateAction db req with
  | (.error e, t) => (.error e, db, t)
  | (.ok allowed, t) =>
    if allowed then
      match encPatch priv r with
      | (.error e, t2) => (.error e, db, t ++ t2)
      | (.ok enc, t2) =>
        match db.updateRecord colName rid enc with
        | .error e => (.error e, db, t ++ t2 ++ [Event.dbUpdateRecord colName rid])
        | .ok db2 => (.ok (), db2, t ++ t2 ++ [Event.dbUpdateRecord colName rid])
    else (.error (.forbidden req), db, t)

/-- Modelled from the spec: the declarative validator on a policy checks
the required attributes. -/
def validatePolicy (p : Policy) : Except VErr Unit :=
  if p.effect ≠ "" ∧ p.actions ≠ [] ∧ p.resources ≠ [] then .ok ()
  else .error (.validationErrors "policy")

/-- Vault.CreatePolicy: first reject any resource pattern not starting
with a slash, then authorize the write on the policies resource, validate
the policy, mint an id and persist. -/
def createPolicy (db : DB) (principal : Principal) (p : Policy) :
    Except VErr Unit × DB × List Event :=
  let req : Request := ⟨principal, policyActionWrite, "/policies"⟩
  match p.resources.find? (fun r => !(strStarts r "/")) with
  | some r =>
    (.error (.valueError ("resources must start with a slash - " ++ r ++ " is not a valid resource")), db, [])
  | none =>
    match validateAction db req with
    | (.error e, t) => (.error e, db, t)
    | (.ok allowed, t) =>
      if allowed then
        match validatePolicy p with
        | .error e => (.error e, db, t)
        | .ok _ =>
          let p2 := { p with id := generateId "pol" db.nextId }
          match DB.createPolicy { db with nextId := db.nextId + 1 } p2 with
          | .error e => (.error e, db, t ++ [Event.dbCreatePolicy p2.id])
          | .ok db2 => (.ok (), db2, t ++ [Event.dbCreatePolicy p2.id])
      else (.error (.forbidden req), db, t)

/-- Vault.Login: empty credentials are rejected with a ValueError; any
principal-fetch failure, a malformed stored principal and a failed hash
comparison all return the same zero-valued Forbidden. -/
def login (db : DB) (username password : String) :
    Except VErr Principal × List Event :=
  if username == "" || password == "" then
    (.error (.valueError "username and password must not be empty"), [])
  else
    match db.getPrincipal username with
    | .error _ => (.error (.forbidden emptyRequest), [Event.dbGetPrincipal username])
    | .ok p =>
      if p.username == "" || p.password == "" then
        (.error (.forbidden emptyRequest), [Event.dbGetPrincipal username])
      else if bcryptOk p.password password then
        (.ok p, [Event.dbGetPrincipal username])
      else (.error (.forbidden emptyRequest), [Event.dbGetPrincipal username])

/-- Vault.CreateToken: load the record through GetRecords (authorization
and existence), mint a token id, persist the tuple string for the first
returned record and return the id; an empty record map after a successful
GetRecords would fall through to a not-found. -/
def createToken (priv : Privatiser) (db : DB) (principal : Principal)
    (colName rid fieldName returnFormat : String) :
    Except VErr String × DB × List Event :=
  match getRecords priv db principal colName [rid] [(fieldName, returnFormat)] with
  | (.error e, t) => (.error e, db, t)
  | (.ok records, t) =>
    let tokenId := generateId "tok" db.nextId
    match records with
    | r0 :: _ =>
      let value := colName ++ "/" ++ r0.1 ++ "/" ++ fieldName ++ "/" ++ returnFormat
      let db2 := { db.createToken tokenId value with nextId := db.nextId + 1 }
      (.ok tokenId, db2, t ++ [Event.dbCreateToken tokenId value])
    | [] => (.error (.notFound "record" rid), db, t)

/-- Vault.GetTokenValue: load the stored tuple, require exactly four
slash-separated parts, re-run GetRecords on that single field under the
caller principal, and return the first record. -/
def getTokenValue (priv : Privatiser) (db : DB) (principal : Principal)
    (tokenId : String) : Except VErr Record × List Event :=
  match db.getTokenValue tokenId with
  | .error e => (.error e, [Event.dbGetTokenValue tokenId])
  | .ok v =>
    match splitOnSlash v with
    | [colName, rid, fieldName, format] =>
      match getRecords priv db principal colName [rid] [(fieldName, format)] with
      | (.error e, t) => (.error e, Event.dbGetTokenValue tokenId :: t)
      | (.ok records, t) =>
        match records with
        | r0 :: _ => (.ok r0.2, Event.dbGetTokenValue tokenId :: t)
        | [] => (.error (.notFound "record" rid), Event.dbGetTokenValue tokenId :: t)
    | _ =>
      (.error (.invalidToken ("invalid token value: " ++ v ++ " stored in token: " ++ tokenId)),
        [Event.dbGetTokenValue tokenId])

/- Concrete fixtures used to evaluate the operations on explicit inputs. -/

def adminPolicy : Policy := ⟨"admin", "admin", "", effectAllow, ["read", "write"], ["/*"]⟩

def pAdmin : Principal := ⟨"prin_0", "admin", hashPassword "pw", "", "", "", ["admin"]⟩

def pNone : Principal := ⟨"prin_1", "noone", "", "", "", "", []⟩

def custCollection : Collection :=
  ⟨"col_0", "customers", [("first_name", ⟨"string", true⟩)], "", "", ""⟩

def plainCollection : Collection :=
  ⟨"col_1", "c", [("first_name", ⟨"string", false⟩)], "", "", ""⟩

def db1 : DB :=
  ⟨[("customers", custCollection)],
   [("customers", [("rec_0", [("first_name", "EBob")])])],
   [], [("admin", adminPolicy)], [], 1⟩

def c1req : Request :=
  ⟨pNone, policyActionRead, "/collections/customers/records/rec_0/first_name.plain"⟩

def db9 : DB :=
  ⟨[("customers", custCollection)], [], [], [("admin", adminPolicy)], [], 0⟩

def db6 : DB :=
  ⟨[("c", plainCollection)],
   [("c", [("rec_0", [("first_name", "EJohn")])])],
   [], [("admin", adminPolicy)], [], 1⟩

def db7 : DB :=
  ⟨[("customers", custCollection)],
   [("customers", [("rec_0", [("first_name", "EJohn")])])],
   [], [("admin", adminPolicy)], [], 1⟩

def db8 : DB :=
  ⟨[("customers", custCollection)],
   [],
   [], [("admin", adminPolicy)],
   [("tok_0", "customers/rec_9/first_name/plain")], 1⟩

def db2w : DB :=
  ⟨[("customers", custCollection)], [], [], [("admin", adminPolicy)], [], 0⟩

theorem validateAction_eq (db : DB) (req : Request) :
    validateAction db req
      = (.ok (EvaluateRequest req (policiesOf db req.actor)), [Event.getPolicies req.actor.policies]) := rfl

/-- C3: the policy decision is deny when any matched policy (matching on
both resource pattern and action) has effect deny, else allow when some
matched policy has effect allow, else deny; and a principal with zero
attached policies has every request denied, as ValidateAction resolves an
empty policy list and the evaluation defaults to deny. -/
theorem c3_policy_decision (r : Request) (ps : List Policy) (db : DB) :
    (EvaluateRequest r ps = true ↔
      ((∀ p ∈ ps, policyMatches p r = true → p.effect ≠ effectDeny) ∧
       (∃ p ∈ ps, policyMatches p r = true ∧ p.effect = effectAllow)))
    ∧ (r.actor.policies = [] → (validateAction db r).1 = .ok false) := by
  constructor
  · simp only [EvaluateRequest]
    by_cases hd : (ps.filter (fun p => policyMatches p r)).any (fun p => p.effect == effectDeny) = true
    · rw [if_pos hd]
      constructor
      · intro hfalse
        exact absurd hfalse (by simp)
      · rintro ⟨hnod, _⟩
        rw [List.any_eq_true] at hd
        obtain ⟨p, hpmem, hpd⟩ := hd
        rw [List.mem_filter] at hpmem
        exact absurd (beq_iff_eq.mp hpd) (hnod p hpmem.1 hpmem.2)
    · rw [if_neg hd]
      rw [Bool.not_eq_true] at hd
      rw [List.any_eq_false] at hd
      constructor
      · intro hal
        rw [List.any_eq_true] at hal
        obtain ⟨p, hpmem, hpa⟩ := hal
        rw [List.mem_filter] at hpmem
        refine ⟨?_, p, hpmem.1, hpmem.2, beq_iff_eq.mp hpa⟩
        intro q hq hqm hqd
        exact hd q (List.mem_filter.mpr ⟨hq, hqm⟩) (by simp [hqd])
      · rintro ⟨_, p, hpmem, hpm, hpa⟩
        rw [List.any_eq_true]
        exact ⟨p, List.mem_filter.mpr ⟨hpmem, hpm⟩, by simp [hpa]⟩
  · intro hz
    rw [validateAction_eq]
    simp only [policiesOf, hz, List.filterMap_nil]
    rfl

/-- C3 witness: a concrete principal with zero attached policies is
denied by ValidateAction on a concrete request. -/
theorem c3_policy_decision_witness :
    (validateAction db2w ⟨pNone, policyActionRead, "/x"⟩).1 = .ok false :=
  (c3_policy_decision ⟨pNone, policyActionRead, "/x"⟩ [] db2w).2 rfl

/-- C5 (amended): on every input with non-empty username and password on
which Login fails, the error is the single zero-valued Forbidden, so no
caller can distinguish a missing principal from a bad secret; empty
credentials alone are rejected with a ValueError instead. -/
theorem c5_login_failures_indistinguishable (db : DB) (u p : String) (e : VErr)
    (hu : u ≠ "") (hp : p ≠ "")
    (h : (login db u p).1 = .error e) : e = .forbidden emptyRequest := by
  have hu2 : (u == "") = false := beq_eq_false_iff_ne.mpr hu
  have hp2 : (p == "") = false := beq_eq_false_iff_ne.mpr hp
  unfold login at h
  split at h
  case isTrue hcond =>
    rw [hu2, hp2] at hcond
    simp at hcond
  case isFalse =>
    split at h
    case h_1 =>
      exact ((Except.error.injEq _ _).mp h).symm
    case h_2 pr =>
      split at h
      case isTrue =>
        exact ((Except.error.injEq _ _).mp h).symm
      case isFalse =>
        split at h
        case isTrue =>
          exact Except.noConfusion h
        case isFalse =>
          exact ((Except.error.injEq _ _).mp h).symm

/-- C5 witness: Login for an unknown access key on a concrete store fails
with the zero-valued Forbidden. -/
theorem c5_login_failures_indistinguishable_witness :
    VErr.forbidden emptyRequest = VErr.forbidden emptyRequest :=
  c5_login_failures_indistinguishable db2w "alice" "pw" (.forbidden emptyRequest)
    (by decide) (by decide) rfl

theorem authRecords_no_formats (db : DB) (principal : Principal) (col : String)
    (ids : List String) : authRecords db principal col [] ids = (.ok (), []) := by
  induction ids with
  | nil => rfl
  | cons i is ih => simp [authRecords, authFields, ih]

theorem renderRecords_no_formats (priv : Privatiser) (col : Collection)
    (l : List (String × Record)) :
    renderRecords priv col [] l = (.ok (l.map (fun x => (x.1, ([] : Record)))), []) := by
  induction l with
  | nil => rfl
  | cons x xs ih => simp [renderRecords, renderRecord, ih]

/-- C4: GetRecords with an empty returnFormats map and a non-empty id list
performs no policy-engine fetch at all and can never return Forbidden: it
reaches the storage reads and returns either the found records with no
fields rendered or a NotFound error, disclosing record existence without
authorization. -/
theorem c4_getRecords_no_formats_skips_authorization
    (priv : Privatiser) (db : DB) (principal : Principal) (colName : String)
    (recordIDs : List String) (h : recordIDs ≠ []) :
    ((getRecords priv db principal colName recordIDs []).2.all
        (fun e => !e.isPolicyFetch) = true)
    ∧ (∀ req, (getRecords priv db principal colName recordIDs []).1
        ≠ .error (.forbidden req))
    ∧ ((∃ m, (getRecords priv db principal colName recordIDs []).1 = .ok m
          ∧ m.all (fun x => x.2.isEmpty) = true)
       ∨ (∃ a b, (getRecords priv db principal colName recordIDs []).1
          = .error (.notFound a b))) := by
  obtain ⟨i, is, rfl⟩ := List.exists_cons_of_ne_nil h
  simp only [getRecords, List.isEmpty_cons, Bool.false_eq_true, if_false,
    authRecords_no_formats, fieldsExist, DB.getRecords]
  cases hl : db.collections.lookup colName with
  | none =>
    simp only [DB.getCollection, hl]
    refine ⟨by simp [Event.isPolicyFetch], fun req h2 => ?_, Or.inr ⟨"collection", colName, rfl⟩⟩
    exact VErr.noConfusion ((Except.error.injEq _ _).mp h2)
  | some col =>
    simp only [DB.getCollection, hl]
    cases hfound : (db.readRecords colName (i :: is)).isEmpty with
    | true =>
      simp only [hfound, if_true]
      refine ⟨by simp [Event.isPolicyFetch], fun req h2 => ?_,
        Or.inr ⟨"record", ([] : List String).headD i, ?_⟩⟩
      · exact VErr.noConfusion ((Except.error.injEq _ _).mp h2)
      · simp
    | false =>
      simp only [hfound, Bool.false_eq_true, if_false, renderRecords_no_formats]
      refine ⟨by simp [Event.isPolicyFetch], fun req h2 => Except.noConfusion h2,
        Or.inl ⟨_, rfl, ?_⟩⟩
      rw [List.all_eq_true]
      intro x hx
      rw [List.mem_map] at hx
      obtain ⟨y, hy, rfl⟩ := hx
      rfl

/-- C4 witness: on a concrete store, a principal with no policies calling
GetRecords with empty formats is not Forbidden. -/
theorem c4_getRecords_no_formats_skips_authorization_witness :
    (getRecords specPriv db7 pNone "customers" ["rec_0"] []).1
      ≠ .error (.forbidden c1req) :=
  (c4_getRecords_no_formats_skips_authorization specPriv db7 pNone "customers"
    ["rec_0"] (by decide)).2.1 c1req

/-- C8: resolving a token whose underlying record has been deleted fails
with the record-lookup NotFound, not with Forbidden: with the token tuple
intact, the caller authorized for the tokenized field-projection, the
collection and field present but the record id absent from storage,
GetTokenValue returns NotFound on that record id. -/
theorem c8_token_over_deleted_record_not_found
    (priv : Privatiser) (db : DB) (principal : Principal)
    (tokenId colName rid fieldName format v : String) (col : Collection)
    (htok : db.getTokenValue tokenId = .ok v)
    (hsplit : splitOnSlash v = [colName, rid, fieldName, format])
    (hauth : EvaluateRequest
        ⟨principal, policyActionRead, recordFieldResource colName rid fieldName format⟩
        (policiesOf db principal) = true)
    (hcol : db.getCollection colName = .ok col)
    (hfield : (col.fields.lookup fieldName).isSome = true)
    (hmiss : (db.recordsOf colName).lookup rid = none) :
    (getTokenValue priv db principal tokenId).1 = .error (.notFound "record" rid) := by
  have hgr : (getRecords priv db principal colName [rid] [(fieldName, format)]).1
      = .error (.notFound "record" rid) := by
    simp only [getRecords, List.isEmpty_cons, Bool.false_eq_true, if_false]
    have hval : validateAction db
        ⟨principal, policyActionRead, recordFieldResource colName rid fieldName format⟩
      = (.ok true, [Event.getPolicies principal.policies]) := by
      rw [validateAction_eq]
      rw [hauth]
    simp only [authRecords, authFields, hval, if_true, hcol, fieldsExist]
    rw [hfield]
    simp only [if_true, DB.getRecords, DB.readRecords, DB.foundRecords,
      List.filterMap_cons, List.filterMap_nil, hmiss, Option.map_none']
    rfl
  simp only [getTokenValue, htok, hsplit]
  cases hp : getRecords priv db principal colName [rid] [(fieldName, format)] with
  | mk res tr =>
    rw [hp] at hgr
    simp only at hgr
    subst hgr
    rfl

/-- C8 witness: a concrete token over a record id absent from the store
resolves to NotFound for an authorized principal. -/
theorem c8_token_over_deleted_record_not_found_witness :
    (getTokenValue specPriv db8 pAdmin "tok_0").1 = .error (.notFound "record" "rec_9") :=
  c8_token_over_deleted_record_not_found specPriv db8 pAdmin "tok_0" "customers"
    "rec_9" "first_name" "plain" "customers/rec_9/first_name/plain" custCollection
    rfl rfl rfl rfl rfl rfl

theorem renderRecords_ok_length (priv : Privatiser) (col : Collection)
    (formats : List (String × String)) (l : List (String × Record))
    (out : List (String × Record)) (t : List Event)
    (h : renderRecords priv col formats l = (.ok out, t)) : out.length = l.length := by
  induction l generalizing out t with
  | nil =>
    simp only [renderRecords, Prod.mk.injEq, Except.ok.injEq] at h
    rw [← h.1]
  | cons x xs ih =>
    obtain ⟨rid, r⟩ := x
    simp only [renderRecords] at h
    split at h
    · simp at h
    · next out0 t0 heq0 =>
      split at h
      · simp at h
      · next outs t2 heq2 =>
        simp only [Prod.mk.injEq, Except.ok.injEq] at h
        obtain ⟨h1, h2⟩ := h
        subst h1
        simp only [List.length_cons]
        rw [ih outs t2 heq2]

theorem getRecords_ok_ne_nil (priv : Privatiser) (db : DB) (principal : Principal)
    (colName : String) (recordIDs : List String) (formats : List (String × String))
    (m : List (String × Record))
    (h : (getRecords priv db principal colName recordIDs formats).1 = .ok m) :
    m ≠ [] := by
  simp only [getRecords] at h
  split at h
  · exact Except.noConfusion h
  · split at h
    · exact Except.noConfusion h
    · next t hab =>
      cases hc : db.getCollection colName with
      | error e => simp only [hc] at h; exact Except.noConfusion h
      | ok col =>
        simp only [hc] at h
        cases hf : fieldsExist col colName formats with
        | error e => simp only [hf] at h; exact Except.noConfusion h
        | ok u =>
          simp only [hf, DB.getRecords] at h
          cases hie : (db.readRecords colName recordIDs).isEmpty with
          | true => simp only [hie, if_true] at h; exact Except.noConfusion h
          | false =>
            simp only [hie, Bool.false_eq_true, if_false] at h
            cases hr : renderRecords priv col formats
                (db.readRecords colName recordIDs) with
            | mk res tr =>
              simp only [hr] at h
              cases res with
              | error e => simp at h
              | ok out =>
                simp only at h
                injection h with h2
                subst h2
                have hlen := renderRecords_ok_length priv col formats _ out tr hr
                intro hnil
                rw [hnil] at hlen
                rw [List.isEmpty_eq_false] at hie
                exact hie (List.eq_nil_of_length_eq_zero hlen.symm)

/-- C10: whenever the GetRecords call inside CreateToken succeeds, the
returned record list is non-empty, so CreateToken persists the token for
the first returned record and returns the minted token id; the trailing
NotFound branch after the loop is unreachable. -/
theorem c10_createToken_returns_minted_id
    (priv : Privatiser) (db : DB) (principal : Principal)
    (colName rid fieldName format : String) (m : List (String × Record))
    (h : (getRecords priv db principal colName [rid] [(fieldName, format)]).1 = .ok m) :
    m ≠ [] ∧ (createToken priv db principal colName rid fieldName format).1
      = .ok (generateId "tok" db.nextId) := by
  have hne := getRecords_ok_ne_nil priv db principal colName [rid]
    [(fieldName, format)] m h
  refine ⟨hne, ?_⟩
  cases hp : getRecords priv db principal colName [rid] [(fieldName, format)] with
  | mk res tr =>
    rw [hp] at h
    simp only at h
    subst h
    simp only [createToken]
    rw [hp]
    cases m with
    | nil => exact absurd rfl hne
    | cons r0 rest => rfl

/-- C10 witness: on a concrete store the inner GetRecords succeeds and
CreateToken returns the minted token id. -/
theorem c10_createToken_returns_minted_id_witness :
    ([("rec_0", [("first_name", "John")])] : List (String × Record)) ≠ []
    ∧ (createToken specPriv db7 pAdmin "customers" "rec_0" "first_name" "plain").1
      = .ok (generateId "tok" db7.nextId) :=
  c10_createToken_returns_minted_id specPriv db7 pAdmin "customers" "rec_0"
    "first_name" "plain" [("rec_0", [("first_name", "John")])] rfl

theorem length_filterMap_lt_of_none {α β : Type} (f : α → Option β) (l : List α)
    (x : α) (hx : x ∈ l) (hfx : f x = none) :
    (l.filterMap f).length < l.length := by
  induction l with
  | nil => cases hx
  | cons a as ih =>
    rcases List.mem_cons.mp hx with rfl | hmem
    · simp only [List.filterMap_cons, hfx, List.length_cons]
      exact Nat.lt_succ_of_le (List.length_filterMap_le f as)
    · simp only [List.filterMap_cons, List.length_cons]
      cases hfa : f a with
      | none => exact Nat.lt_succ_of_lt (ih hmem)
      | some b =>
        simp only [List.length_cons]
        exact Nat.succ_lt_succ (ih hmem)

theorem readRecords_eq_nil_of_missing (db : DB) (col : String) (ids : List String)
    (i : String) (hi : i ∈ ids)
    (hnone : (db.recordsOf col).lookup i = none) :
    db.readRecords col ids = [] := by
  have hlt : (db.foundRecords col ids).length < ids.length := by
    refine length_filterMap_lt_of_none _ ids i hi ?_
    rw [hnone]
    rfl
  simp only [DB.readRecords]
  rw [if_neg (by omega)]

/-- C7: whenever at least one requested record id does not exist in
storage (so at most a strict subset of the requested ids exists), the
storage get-many yields no records, the orchestrator's empty-result
guard fires, and GetRecords returns NotFound referencing only the first
requested id and returns no records — given that the call passes
authorization, the collection load and the field check. -/
theorem c7_subset_miss_returns_notFound_first_id
    (priv : Privatiser) (db : DB) (principal : Principal) (colName : String)
    (recordIDs : List String) (formats : List (String × String)) (col : Collection)
    (i : String) (hi : i ∈ recordIDs)
    (hnone : (db.recordsOf colName).lookup i = none)
    (hauth : (authRecords db principal colName formats recordIDs).1 = .ok ())
    (hcol : db.getCollection colName = .ok col)
    (hfields : fieldsExist col colName formats = .ok ()) :
    (getRecords priv db principal colName recordIDs formats).1
      = .error (.notFound "record" (recordIDs.headD "")) := by
  have hne2 : recordIDs.isEmpty = false := by
    cases recordIDs with
    | nil => cases hi
    | cons a as => rfl
  have hres := readRecords_eq_nil_of_missing db colName recordIDs i hi hnone
  cases hA : authRecords db principal colName formats recordIDs with
  | mk ra ta =>
    rw [hA] at hauth
    simp only at hauth
    subst hauth
    simp only [getRecords, hne2, Bool.false_eq_true, if_false, hA, hcol, hfields,
      DB.getRecords, hres, List.isEmpty_nil, if_true]

/-- C7 witness: on a concrete store holding rec_0 but not rec_x, an
authorized GetRecords for both ids returns NotFound referencing rec_0,
the first requested id, and no records. -/
theorem c7_subset_miss_returns_notFound_first_id_witness :
    (getRecords specPriv db7 pAdmin "customers" ["rec_0", "rec_x"]
      [("first_name", "plain")]).1 = .error (.notFound "record" "rec_0") :=
  c7_subset_miss_returns_notFound_first_id specPriv db7 pAdmin "customers"
    ["rec_0", "rec_x"] [("first_name", "plain")] custCollection "rec_x"
    (by decide) rfl rfl rfl rfl

theorem lookup_setAssoc_self {α : Type} (m : List (String × α)) (k : String) (v : α) :
    (setAssoc m k v).lookup k = some v := by
  induction m with
  | nil => simp [setAssoc, List.lookup]
  | cons kv rest ih =>
    obtain ⟨k2, v2⟩ := kv
    simp only [setAssoc]
    split
    · simp [List.lookup]
    · next hne =>
      simp only [List.lookup, beq_eq_false_iff_ne.mpr hne]
      exact ih

theorem lookup_append_of_none {α : Type} (l1 l2 : List (String × α)) (k : String)
    (h : l1.lookup k = none) : (l1 ++ l2).lookup k = l2.lookup k := by
  induction l1 with
  | nil => simp
  | cons kv rest ih =>
    obtain ⟨k2, v2⟩ := kv
    simp only [List.lookup, List.cons_append] at h ⊢
    cases hk : (k == k2) with
    | true =>
      rw [hk] at h
      exact Option.noConfusion h
    | false =>
      rw [hk] at h
      exact ih h

theorem lookup_map_enc (E : String → String) (R : Record) (f : String) :
    (R.map (fun fv => (fv.1, E fv.2))).lookup f = (R.lookup f).map E := by
  induction R with
  | nil => rfl
  | cons fv rest ih =>
    obtain ⟨g, v⟩ := fv
    simp only [List.map_cons, List.lookup]
    cases hk : (f == g) with
    | true => rfl
    | false => exact ih

theorem lookup_of_mem_nodup (R : Record) (f v : String)
    (hnd : (R.map Prod.fst).Nodup) (hm : (f, v) ∈ R) : R.lookup f = some v := by
  induction R with
  | nil => cases hm
  | cons fv rest ih =>
    obtain ⟨g, w⟩ := fv
    simp only [List.map_cons, List.nodup_cons] at hnd
    rcases List.mem_cons.mp hm with heq | hmem
    · injection heq with h1 h2
      subst h1
      subst h2
      simp [List.lookup]
    · have hfg : (f == g) = false := by
        refine beq_eq_false_iff_ne.mpr (fun hfg => ?_)
        subst hfg
        exact hnd.1 (List.mem_map.mpr ⟨(f, v), hmem, rfl⟩)
      simp only [List.lookup, hfg]
      exact ih hnd.2 hmem

theorem PValue_get_plain (pv : PValue) : pv.get "plain" = .ok pv.val := by
  simp [PValue.get]

theorem encRecord_ok (priv : Privatiser) (E : String → String) (col : Collection)
    (colName : String) (R : Record)
    (hE : ∀ s, priv.encrypt s = .ok (E s))
    (hfields : ∀ fv ∈ R, ∃ fld, col.fields.lookup fv.1 = some fld
        ∧ GetPType fld.type fv.2 = .ok ⟨fld.type, fv.2⟩) :
    encRecord priv col colName R
      = (.ok (R.map (fun fv => (fv.1, E fv.2))),
         R.map (fun fv => Event.encryptEv fv.2)) := by
  induction R with
  | nil => rfl
  | cons fv rest ih =>
    obtain ⟨f, v⟩ := fv
    obtain ⟨fld, hl, hg⟩ := hfields (f, v) (List.mem_cons_self _ _)
    have ih2 := ih (fun x hx => hfields x (List.mem_cons_of_mem _ hx))
    simp only [encRecord, hl, hg, hE, ih2, List.map_cons]

theorem authFields_ok (db : DB) (principal : Principal) (colName rid : String)
    (fmts : List (String × String))
    (h : ∀ fv ∈ fmts, EvaluateRequest
        ⟨principal, policyActionRead, recordFieldResource colName rid fv.1 fv.2⟩
        (policiesOf db principal) = true) :
    authFields db principal colName rid fmts
      = (.ok (), fmts.map (fun _ => Event.getPolicies principal.policies)) := by
  induction fmts with
  | nil => rfl
  | cons fv rest ih =>
    obtain ⟨f, fm⟩ := fv
    have hv := h (f, fm) (List.mem_cons_self _ _)
    have ih2 := ih (fun x hx => h x (List.mem_cons_of_mem _ hx))
    simp only [authFields, validateAction_eq, hv, if_true, ih2, List.map_cons,
      List.singleton_append]

theorem fieldsExist_ok (col : Collection) (colName : String)
    (fmts : List (String × String))
    (h : ∀ fv ∈ fmts, (col.fields.lookup fv.1).isSome = true) :
    fieldsExist col colName fmts = .ok () := by
  induction fmts with
  | nil => rfl
  | cons fv rest ih =>
    obtain ⟨f, fm⟩ := fv
    simp only [fieldsExist, h (f, fm) (List.mem_cons_self _ _), if_true]
    exact ih (fun x hx => h x (List.mem_cons_of_mem _ hx))

theorem renderRecord_roundtrip (priv : Privatiser) (E : String → String)
    (col : Collection) (R : Record) (S : Record)
    (hD : ∀ s, priv.decrypt (E s) = .ok s)
    (hS : ∀ fv ∈ S, R.lookup fv.1 = some fv.2
        ∧ ∃ fld, col.fields.lookup fv.1 = some fld
          ∧ GetPType fld.type fv.2 = .ok ⟨fld.type, fv.2⟩) :
    renderRecord priv col (R.map (fun fv => (fv.1, E fv.2)))
        (S.map (fun fv => (fv.1, "plain")))
      = (.ok S, S.map (fun fv => Event.decryptEv (E fv.2))) := by
  induction S with
  | nil => rfl
  | cons fv rest ih =>
    obtain ⟨f, v⟩ := fv
    obtain ⟨hlk, fld, hfl, hgp⟩ := hS (f, v) (List.mem_cons_self _ _)
    have ih2 := ih (fun x hx => hS x (List.mem_cons_of_mem _ hx))
    have hcipher : (((R.map (fun fv => (fv.1, E fv.2))).lookup f).getD "") = E v := by
      rw [lookup_map_enc, hlk]
      rfl
    simp only [List.map_cons, renderRecord, hcipher, hD, hfl, Option.getD_some,
      hgp, PValue_get_plain, ih2]

theorem DB_createRecords_singleton (db : DB) (colName : String) (r : Record) :
    db.createRecords colName [r]
      = ([generateId "rec" db.nextId],
         db.withRecords colName
           (db.recordsOf colName ++ [(generateId "rec" db.nextId, r)])
           (db.nextId + 1)) := rfl

/-- C2: the create-then-read round trip is the identity. For every record
whose fields are a subset of the collection schema and whose values parse
under their fields' PTypes, with a round-tripping privatiser and an
authorized principal, CreateRecords returns the minted id and GetRecords
on that id with the plain projection for every field of the record
returns the record verbatim. -/
theorem c2_create_then_read_roundtrip
    (priv : Privatiser) (E : String → String) (db : DB) (principal : Principal)
    (colName : String) (col : Collection) (R : Record)
    (hE : ∀ s, priv.encrypt s = .ok (E s))
    (hD : ∀ s, priv.decrypt (E s) = .ok s)
    (hcol : db.collections.lookup colName = some col)
    (hnd : (R.map Prod.fst).Nodup)
    (hfields : ∀ fv ∈ R, ∃ fld, col.fields.lookup fv.1 = some fld
        ∧ GetPType fld.type fv.2 = .ok ⟨fld.type, fv.2⟩)
    (hfresh : (db.recordsOf colName).lookup (generateId "rec" db.nextId) = none)
    (hwrite : EvaluateRequest ⟨principal, policyActionWrite, recordsResource colName⟩
        (policiesOf db principal) = true)
    (hread : ∀ fv ∈ R, EvaluateRequest
        ⟨principal, policyActionRead,
          recordFieldResource colName (generateId "rec" db.nextId) fv.1 "plain"⟩
        (policiesOf db principal) = true) :
    (createRecords priv db principal colName [R]).1
      = .ok [generateId "rec" db.nextId]
    ∧ (getRecords priv (createRecords priv db principal colName [R]).2.1 principal
        colName [generateId "rec" db.nextId]
        (R.map (fun fv => (fv.1, "plain")))).1
      = .ok [(generateId "rec" db.nextId, R)] := by
  have henc : encRecords priv col colName [R]
      = (.ok [R.map (fun fv => (fv.1, E fv.2))],
         R.map (fun fv => Event.encryptEv fv.2)) := by
    simp [encRecords, encRecord_ok priv E col colName R hE hfields]
  have hcreate : createRecords priv db principal colName [R]
      = (.ok [generateId "rec" db.nextId],
         db.withRecords colName
           (db.recordsOf colName
             ++ [(generateId "rec" db.nextId, R.map (fun fv => (fv.1, E fv.2)))])
           (db.nextId + 1),
         ([Event.getPolicies principal.policies] ++ [Event.getCollection colName]
           ++ R.map (fun fv => Event.encryptEv fv.2)
           ++ [Event.dbCreateRecords colName 1])) := by
    simp only [createRecords, validateAction_eq, hwrite, if_true, DB.getCollection,
      hcol, henc, DB_createRecords_singleton, List.length_singleton]
  refine ⟨by rw [hcreate], ?_⟩
  rw [hcreate]
  have hro : (db.withRecords colName
        (db.recordsOf colName
          ++ [(generateId "rec" db.nextId, R.map (fun fv => (fv.1, E fv.2)))])
        (db.nextId + 1)).recordsOf colName
      = db.recordsOf colName
        ++ [(generateId "rec" db.nextId, R.map (fun fv => (fv.1, E fv.2)))] := by
    simp [DB.recordsOf, DB.withRecords, lookup_setAssoc_self]
  have hauth2 : ∀ fv ∈ R.map (fun fv => (fv.1, "plain")), EvaluateRequest
      ⟨principal, policyActionRead,
        recordFieldResource colName (generateId "rec" db.nextId) fv.1 fv.2⟩
      (policiesOf db principal) = true := by
    intro fv hfv
    rw [List.mem_map] at hfv
    obtain ⟨x, hx, rfl⟩ := hfv
    exact hread x hx
  have hafW := authFields_ok (db.withRecords colName
      (db.recordsOf colName
        ++ [(generateId "rec" db.nextId, R.map (fun fv => (fv.1, E fv.2)))])
      (db.nextId + 1)) principal colName (generateId "rec" db.nextId)
    (R.map (fun fv => (fv.1, "plain"))) hauth2
  have hcols2 : (db.withRecords colName
      (db.recordsOf colName
        ++ [(generateId "rec" db.nextId, R.map (fun fv => (fv.1, E fv.2)))])
      (db.nextId + 1)).collections = db.collections := rfl
  have hfe := fieldsExist_ok col colName (R.map (fun fv => (fv.1, "plain")))
    (by
      intro fv hfv
      rw [List.mem_map] at hfv
      obtain ⟨x, hx, rfl⟩ := hfv
      obtain ⟨fld, hl, _⟩ := hfields x hx
      rw [hl]
      rfl)
  have hrr := renderRecord_roundtrip priv E col R R hD
    (by
      intro fv hfv
      refine ⟨lookup_of_mem_nodup R fv.1 fv.2 hnd hfv, hfields fv hfv⟩)
  have hlk : ((db.withRecords colName
        (db.recordsOf colName
          ++ [(generateId "rec" db.nextId, R.map (fun fv => (fv.1, E fv.2)))])
        (db.nextId + 1)).recordsOf colName).lookup (generateId "rec" db.nextId)
      = some (R.map (fun fv => (fv.1, E fv.2))) := by
    rw [hro, lookup_append_of_none _ _ _ hfresh]
    simp [List.lookup]
  have hread2 : (db.withRecords colName
        (db.recordsOf colName
          ++ [(generateId "rec" db.nextId, R.map (fun fv => (fv.1, E fv.2)))])
        (db.nextId + 1)).readRecords colName [generateId "rec" db.nextId]
      = [(generateId "rec" db.nextId, R.map (fun fv => (fv.1, E fv.2)))] := by
    simp [DB.readRecords, DB.foundRecords, List.filterMap_cons, List.filterMap_nil, hlk]
  simp only [getRecords, List.isEmpty_cons, Bool.false_eq_true, if_false,
    authRecords, hafW, hcols2, DB.getCollection, hcol, hfe, DB.getRecords,
    hread2, if_false, renderRecords, hrr]

/-- C2 witness: a concrete record round-trips through CreateRecords and
GetRecords on a concrete store with the reversible privatiser. -/
theorem c2_create_then_read_roundtrip_witness :
    (createRecords specPriv db2w pAdmin "customers"
      [[("first_name", "John")]]).1 = .ok [generateId "rec" db2w.nextId]
    ∧ (getRecords specPriv
        (createRecords specPriv db2w pAdmin "customers" [[("first_name", "John")]]).2.1
        pAdmin "customers" [generateId "rec" db2w.nextId]
        ([("first_name", "John")].map (fun fv => (fv.1, "plain")))).1
      = .ok [(generateId "rec" db2w.nextId, [("first_name", "John")])] := by
  refine c2_create_then_read_roundtrip specPriv
    (fun s => String.mk ('E' :: s.data)) db2w pAdmin "customers" custCollection
    [("first_name", "John")] (fun s => rfl) (fun s => rfl) rfl (by simp) ?_ rfl rfl ?_
  · intro fv hfv
    rw [List.mem_singleton] at hfv
    subst hfv
    exact ⟨⟨"string", true⟩, rfl, rfl⟩
  · intro fv hfv
    rw [List.mem_singleton] at hfv
    subst hfv
    rfl

/-- C1: the claim states that every public operation, GetRecordsFilter in
particular, returns Forbidden to a policy-denied principal before any
storage read or write, the policy-engine call being the first effectful
step. The code contradicts it: on a concrete store holding one matching
customer record, GetRecordsFilter for a principal with no policies does
return Forbidden, but its effect trace performs the storage index lookup
before the first policy-engine fetch. -/
theorem c1_filter_storage_read_precedes_policy_check :
    (getRecordsFilter specPriv db1 pNone "customers" "first_name" "Bob"
      [("first_name", "plain")]).1 = .error (.forbidden c1req)
    ∧ (getRecordsFilter specPriv db1 pNone "customers" "first_name" "Bob"
        [("first_name", "plain")]).2
      = [Event.encryptEv "Bob", Event.dbGetRecordsFilter "customers" "first_name" "EBob",
         Event.getPolicies []]
    ∧ (((getRecordsFilter specPriv db1 pNone "customers" "first_name" "Bob"
        [("first_name", "plain")]).2.takeWhile (fun e => !e.isPolicyFetch)).any
        Event.isNonPolicyStorage) = true := by
  refine ⟨rfl, rfl, rfl⟩

/-- C9: the claim states crypto errors are surfaced unchanged, in
particular that GetRecordsFilter surfaces an Encrypt failure on the
lookup value. The code contradicts it: with a privatiser whose Encrypt
fails, GetRecordsFilter discards the error, queries storage with the
zero-valued ciphertext and returns an unrelated ValueError. -/
theorem c9_filter_swallows_encrypt_error :
    privFail.encrypt "Bob" = .error (.cryptoError "boom")
    ∧ (getRecordsFilter privFail db9 pAdmin "customers" "first_name" "Bob"
        [("first_name", "plain")]).1 = .error (.valueError "recordIDs must not be empty")
    ∧ (getRecordsFilter privFail db9 pAdmin "customers" "first_name" "Bob"
        [("first_name", "plain")]).2
      = [Event.encryptEv "Bob", Event.dbGetRecordsFilter "customers" "first_name" ""] := by
  refine ⟨rfl, rfl, rfl⟩

/-- C6: the claim states that both CreateRecords and UpdateRecord reject,
with a ValueError and before any storage write, any record or patch with
a field not declared on the collection. The code contradicts the
UpdateRecord half: on a collection declaring only first_name, a patch
with the undeclared field bogus is encrypted and persisted successfully,
so the stored record gains an undeclared field; the CreateRecords half
does hold on the same input, rejecting before any write event. -/
theorem c6_updateRecord_persists_undeclared_field :
    (updateRecord specPriv db6 pAdmin "c" "rec_0" [("bogus", "x")]).1 = .ok ()
    ∧ (((updateRecord specPriv db6 pAdmin "c" "rec_0" [("bogus", "x")]).2.1.recordsOf "c").lookup
        "rec_0") = some [("first_name", "EJohn"), ("bogus", "Ex")]
    ∧ (createRecords specPriv db6 pAdmin "c" [[("bogus", "x")]]).1
      = .error (.valueError "Field bogus not found on collection c")
    ∧ (createRecords specPriv db6 pAdmin "c" [[("bogus", "x")]]).2.2
      = [Event.getPolicies ["admin"], Event.getCollection "c"] := by
  refine ⟨rfl, rfl, rfl, rfl⟩

/-- C5 counterexample: the claim states every failing Login input yields
the same Forbidden value; Login with an empty username fails with a
ValueError instead, which is not that Forbidden value. -/
theorem c5_empty_credentials_not_forbidden :
    (login db6 "" "pw").1 = .error (.valueError "username and password must not be empty")
    ∧ VErr.valueError "username and password must not be empty"
        ≠ VErr.forbidden emptyRequest := by
  refine ⟨rfl, by decide⟩

end Subrose
